import Mathlib

/-!
Verification of the IFI-Events-Aggregator deduplication core.

Shallow embedding of `src/utils/deduplication.py` (together with the parts of
`src/models/event.py` and of Python's `difflib.SequenceMatcher` that it uses),
and proofs settling the spec claims about it.

Modelling conventions:
* timezone-aware `datetime` instants are modelled as `Int` (seconds on an
  absolute time axis; `Event.__init__` converts everything to the Oslo zone, so
  comparisons and differences are plain instant arithmetic);
* `timedelta(minutes=m)` is `60 * m` seconds;
* Python `None`-able fields are `Option`; Python truthiness (`None`, `""` and
  `0` are falsy) is modelled explicitly;
* `float` similarity ratios and thresholds are modelled as `ℚ` (exact), with
  `x / y` written as `mkRat x y` (the same rational value);
* code that can raise (`max(None, ...)` inside `merge_events`) returns
  `Except String`.
-/

deriving instance DecidableEq for Except

/-- Python truthiness of an optional string: `None` and `""` are falsy. -/
def pyTruthyStr : Option String → Bool
  | none => false
  | some s => s ≠ ""

/-- Python `a or b` for optional strings (`None`/`""` falsy). -/
def pyOrStr (a b : Option String) : Option String :=
  if pyTruthyStr a then a else b

/-- Python truthiness of an optional integer: `None` and `0` are falsy. -/
def pyTruthyInt : Option Int → Bool
  | none => false
  | some n => n ≠ 0

/-- Python `a or b` for optional integers (`None`/`0` falsy). -/
def pyOrInt (a b : Option Int) : Option Int :=
  if pyTruthyInt a then a else b

/-- Python `a or b` for optional datetimes (a `datetime` is always truthy). -/
def pyOrDatetime (a b : Option Int) : Option Int :=
  match a with
  | some x => some x
  | none => b

/-- Python `str(x)`/f-string rendering of an optional string (`None` → `"None"`). -/
def pyStr : Option String → String
  | none => "None"
  | some s => s

/-- Python `x or ""` for an optional string. -/
def pyOrEmptyStr (o : Option String) : String :=
  match o with
  | none => ""
  | some s => s

/-- Python `abs` on a `timedelta` (here: a signed number of seconds). -/
def pyAbs (d : Int) : Int := if d < 0 then -d else d

/-- Python `min(a, b)`: the builtin keeps the first argument unless the
second compares strictly smaller. -/
def pyMin (a b : Int) : Int := if b < a then b else a

/-- Python `max(a, b)`: the builtin keeps the first argument unless the
second compares strictly greater. -/
def pyMax (a b : Int) : Int := if a < b then b else a

/-- The `Event` model of `src/models/event.py` (fields relevant to the core). -/
structure Event where
  id : Option Int := none
  title : String
  description : Option String := none
  start_time : Int
  end_time : Option Int := none
  location : Option String := none
  source_url : Option String := none
  source_name : Option String := none
  created_at : Option Int := none
  fetched_at : Option Int := none
  capacity : Option Int := none
  spots_left : Option Int := none
  registration_opens : Option Int := none
  registration_url : Option String := none
  food : Option String := none
  attachment : Option String := none
  author : Option String := none
  deriving DecidableEq, Repr

/-- Configuration class `DuplicateConfig` from `src/utils/deduplication.py`, with its defaults. -/
structure DuplicateConfig where
  title_similarity_threshold : ℚ := mkRat 85 100
  time_window_minutes : Int := 120
  require_same_location : Bool := false
  require_exact_time : Bool := false
  ignore_case : Bool := true
  normalize_whitespace : Bool := true
  deriving DecidableEq, Repr

/-- Python `text.split()`: split on runs of whitespace, discarding empty words
(leading/trailing whitespace produces none). -/
def pySplitWs : List Char → List Char → List (List Char)
  | [], acc => if acc.isEmpty then [] else [acc.reverse]
  | c :: cs, acc =>
    if c.isWhitespace then
      if acc.isEmpty then pySplitWs cs [] else acc.reverse :: pySplitWs cs []
    else pySplitWs cs (c :: acc)

/-- Python `' '.join(words)`. -/
def joinWithSpace : List (List Char) → List Char
  | [] => []
  | [w] => w
  | w :: ws => w ++ ' ' :: joinWithSpace ws

/-- Embedding of `normalize_string(text, config)`: empty text short-circuits to `""`;
otherwise optionally case-fold (`str.lower`; ASCII suffices for the
titles/locations compared here), then optionally collapse whitespace runs
(`' '.join(text.split())`). -/
def normalize_string (text : String) (config : DuplicateConfig) : String :=
  if text = "" then ""
  else
    let cs := text.data
    let cs := if config.ignore_case then cs.map Char.toLower else cs
    let cs := if config.normalize_whitespace then joinWithSpace (pySplitWs cs []) else cs
    String.mk cs

/-!
Embedding of difflib.SequenceMatcher (isjunk=None, autojunk=True).

`calculate_title_similarity` calls `SequenceMatcher(None, title1, title2).ratio()`.
The embedding below follows CPython's `difflib.py`:
`b2j` position lists (with the autojunk "popular element" trimming, active only
for `len(b) >= 200`), `find_longest_match`'s dynamic inner loop plus its
extension loops (the junk-set `bjunk` is empty since `isjunk=None`, so the two
junk-extension loops never fire and the `isbjunk` tests are `False`), the
`get_matching_blocks` divide-and-conquer recursion (fuel-bounded here), and
`_calculate_ratio`.
-/

/-- Ascending positions of `c` in `b`: one entry of difflib's raw `b2j`. -/
def b2jPositions (b : List Char) (c : Char) : List Nat :=
  (List.range b.length).filter (fun j => b.getD j ' ' == c && j < b.length)

/-- Lookup in `b2j` after autojunk trimming: for `len(b) >= 200`, positions of
"popular" elements (more than `len(b) // 100 + 1` occurrences) are dropped. -/
def b2j (b : List Char) (c : Char) : List Nat :=
  let idxs := b2jPositions b c
  if b.length ≥ 200 ∧ idxs.length > b.length / 100 + 1 then [] else idxs

/-- Python `j2len.get(j, 0)` on an association list. -/
def j2lenGet (l : List (Nat × Nat)) (j : Nat) : Nat :=
  match l.find? (fun p => p.1 == j) with
  | some p => p.2
  | none => 0

/-- Inner `for j in b2j[a[i]]` loop of `find_longest_match` for one index `i`:
threads `newj2len` and the current best `(besti, bestj, bestsize)`.
`js` is already restricted to `blo ≤ j < bhi` (the `continue`/`break` guards;
the positions are ascending). The Python lookup `j2len.get(j-1, 0)` at `j = 0`
reads the absent key `-1`, hence the explicit `j = 0` guard. -/
def flmInner (i : Nat) (j2len : List (Nat × Nat)) :
    List Nat → List (Nat × Nat) → Nat × Nat × Nat → List (Nat × Nat) × (Nat × Nat × Nat)
  | [], newj2len, best => (newj2len, best)
  | j :: js, newj2len, best =>
    let k := (if j = 0 then 0 else j2lenGet j2len (j - 1)) + 1
    let newj2len := (j, k) :: newj2len
    let best := if k > best.2.2 then (i + 1 - k, j + 1 - k, k) else best
    flmInner i j2len js newj2len best

/-- Outer `for i in range(alo, ahi)` loop of `find_longest_match`. -/
def flmILoop (a b : List Char) (blo bhi : Nat) :
    List Nat → List (Nat × Nat) → Nat × Nat × Nat → Nat × Nat × Nat
  | [], _, best => best
  | i :: is, j2len, best =>
    let js := (b2j b (a.getD i ' ')).filter (fun j => blo ≤ j && j < bhi)
    let (newj2len, best) := flmInner i j2len js [] best
    flmILoop a b blo bhi is newj2len best

/-- First extension loop: grow the best block leftwards while the adjacent
characters match (`isbjunk` is constantly false since `isjunk=None`). -/
def flmExtendLeft (a b : List Char) (alo blo : Nat) :
    Nat → Nat × Nat × Nat → Nat × Nat × Nat
  | 0, best => best
  | fuel + 1, (besti, bestj, bestsize) =>
    if besti > alo ∧ bestj > blo ∧ a.getD (besti - 1) ' ' = b.getD (bestj - 1) '!' then
      flmExtendLeft a b alo blo fuel (besti - 1, bestj - 1, bestsize + 1)
    else (besti, bestj, bestsize)

/-- Second extension loop: grow the best block rightwards. -/
def flmExtendRight (a b : List Char) (ahi bhi : Nat) :
    Nat → Nat × Nat × Nat → Nat × Nat × Nat
  | 0, best => best
  | fuel + 1, (besti, bestj, bestsize) =>
    if besti + bestsize < ahi ∧ bestj + bestsize < bhi ∧
        a.getD (besti + bestsize) ' ' = b.getD (bestj + bestsize) '!' then
      flmExtendRight a b ahi bhi fuel (besti, bestj, bestsize + 1)
    else (besti, bestj, bestsize)

/-- Embedding of `SequenceMatcher.find_longest_match(alo, ahi, blo, bhi)` (isjunk=None).
The two junk-extension loops of the source are omitted: `bjunk` is empty, so
their `isbjunk(...)` conditions are `False` and they never iterate. -/
def find_longest_match (a b : List Char) (alo ahi blo bhi : Nat) : Nat × Nat × Nat :=
  let best := flmILoop a b blo bhi (List.range' alo (ahi - alo)) [] (alo, blo, 0)
  let best := flmExtendLeft a b alo blo (a.length + b.length) best
  flmExtendRight a b ahi bhi (a.length + b.length) best

/-- Total matched size over `get_matching_blocks`' recursion on
`a[alo:ahi] × b[blo:bhi]`; the fuel bounds the recursion depth (each level
strictly shrinks the combined span, so `|a| + |b| + 1` is ample). -/
def matchingBlocksSum (a b : List Char) : Nat → Nat → Nat → Nat → Nat → Nat
  | 0, _, _, _, _ => 0
  | fuel + 1, alo, ahi, blo, bhi =>
    let (i, j, k) := find_longest_match a b alo ahi blo bhi
    if k = 0 then 0
    else
      (if alo < i ∧ blo < j then matchingBlocksSum a b fuel alo i blo j else 0) +
      k +
      (if i + k < ahi ∧ j + k < bhi then matchingBlocksSum a b fuel (i + k) ahi (j + k) bhi else 0)

/-- Embedding of `difflib._calculate_ratio(matches, length)`: `2.0 * matches / length`,
or `1.0` for two empty sequences. -/
def _calculate_ratio (matchCount length : Nat) : ℚ :=
  if length ≠ 0 then mkRat (2 * matchCount) length else 1

/-- Embedding of `SequenceMatcher(None, a, b).ratio()`. -/
def sequenceMatcherRatio (a b : String) : ℚ :=
  let la := a.data
  let lb := b.data
  _calculate_ratio (matchingBlocksSum la lb (la.length + lb.length + 1) 0 la.length 0 lb.length)
    (la.length + lb.length)

/-- Embedding of `calculate_title_similarity(title1, title2, config)`. -/
def calculate_title_similarity (title1 title2 : String) (config : DuplicateConfig) : ℚ :=
  sequenceMatcherRatio (normalize_string title1 config) (normalize_string title2 config)

/-- Embedding of `are_events_duplicate(event1, event2, config)`: title-similarity gate,
then the exact/windowed time check, then the optional location check. -/
def are_events_duplicate (event1 event2 : Event) (config : DuplicateConfig) : Bool :=
  let title_similarity := calculate_title_similarity event1.title event2.title config
  let location_ok : Bool :=
    if config.require_same_location then
      normalize_string (pyOrEmptyStr event1.location) config =
        normalize_string (pyOrEmptyStr event2.location) config
    else true
  if title_similarity < config.title_similarity_threshold then false
  else if config.require_exact_time then
    if event1.start_time ≠ event2.start_time ∨ event1.end_time ≠ event2.end_time then false
    else location_ok
  else if pyAbs (event1.start_time - event2.start_time) > 60 * config.time_window_minutes then
    false
  else location_ok

/-- Embedding of `merge_events(event1, event2)` from `src/utils/deduplication.py`.
The constructed record carries only the fields passed to `Event(...)` there;
`fetched_at`, `attachment` and `author` are not passed and default to `None`.
`max(event1.end_time, event2.end_time)` raises `TypeError` whenever either
operand is `None` (CPython compares the operands with `>`), which is the one
fallible step, hence the `Except` result. -/
def merge_events (event1 event2 : Event) : Except String Event :=
  let id_to_keep : Option Int :=
    match event1.created_at, event2.created_at with
    | some c1, some c2 => if c1 < c2 then event1.id else event2.id
    | _, _ => pyOrInt event1.id event2.id
  let description : Option String :=
    if pyTruthyStr event2.description && event2.description ≠ event1.description then
      some (pyStr event1.description ++ "\n\nAlternative description:\n" ++
        pyStr event2.description)
    else event1.description
  let location := pyOrStr event1.location event2.location
  let source_urls : List String :=
    [event1.source_url, event2.source_url].filterMap (fun o => if pyTruthyStr o then o else none)
  let source_names : List String :=
    [event1.source_name, event2.source_name].filterMap (fun o => if pyTruthyStr o then o else none)
  let registration_opens : Option Int :=
    match event1.registration_opens, event2.registration_opens with
    | some r1, some r2 => some (pyMin r1 r2)
    | _, _ => pyOrDatetime event1.registration_opens event2.registration_opens
  let registration_urls : List String :=
    [event1.registration_url, event2.registration_url].filterMap
      (fun o => if pyTruthyStr o then o else none)
  let capacity := pyOrInt event1.capacity event2.capacity
  let spots_left := pyOrInt event1.spots_left event2.spots_left
  let food := pyOrStr event1.food event2.food
  match event1.end_time, event2.end_time with
  | some et1, some et2 =>
    .ok { id := id_to_keep
          title := event1.title
          description := description
          start_time := pyMin event1.start_time event2.start_time
          end_time := some (pyMax et1 et2)
          location := location
          source_url := source_urls.head?
          source_name :=
            if source_names.length > 1 then some (String.intercalate ", " source_names)
            else source_names.head?
          created_at :=
            match event1.created_at, event2.created_at with
            | some c1, some c2 => some (pyMin c1 c2)
            | _, _ => pyOrDatetime event1.created_at event2.created_at
          capacity := capacity
          spots_left := spots_left
          food := food
          registration_opens := registration_opens
          registration_url := registration_urls.head? }
  | _, _ => .error "TypeError: '>' not supported between instances of 'NoneType' and 'datetime'"

/-!
The clustering pass of `deduplicate_database`.

`deduplicate_database` loads all events ordered by `created_at` ascending,
runs the nested merge loop below, deletes every row and re-inserts the merged
events, all inside one transaction committed at the end. The loop is embedded
as two recursions: `clusterInner` is the `for event2 in events[i+1:]` loop
threading `current_event` and `processed_ids`, `clusterOuter` the outer loop.
`processed_ids` (a Python set of ids, which may contain `None`) is a
`List (Option Int)` with membership as the set test. -/

/-- Inner loop: fold `current_event` over the remaining events, absorbing
duplicates, recording their ids and counting them. -/
def clusterInner (config : DuplicateConfig) :
    Event → List Event → List (Option Int) →
      Except String (Event × List (Option Int) × Nat)
  | current, [], processed => .ok (current, processed, 0)
  | current, event2 :: rest, processed =>
    if event2.id ∈ processed then clusterInner config current rest processed
    else if are_events_duplicate current event2 config then
      match merge_events current event2 with
      | .error msg => .error msg
      | .ok merged =>
        match clusterInner config merged rest (event2.id :: processed) with
        | .error msg => .error msg
        | .ok (current', processed', n) => .ok (current', processed', n + 1)
    else clusterInner config current rest processed

/-- Outer loop over the candidate events; returns
`(duplicate_count, merged_events)`. -/
def clusterOuter (config : DuplicateConfig) :
    List Event → List (Option Int) → Except String (Nat × List Event)
  | [], _ => .ok (0, [])
  | event1 :: rest, processed =>
    if event1.id ∈ processed then clusterOuter config rest processed
    else
      match clusterInner config event1 rest processed with
      | .error msg => .error msg
      | .ok (current, processed', n) =>
        match clusterOuter config rest (event1.id :: processed') with
        | .error msg => .error msg
        | .ok (total, merged) => .ok (n + total, current :: merged)

/-- The find-and-merge pass of `deduplicate_database` on an in-memory event
list (lines 174–195 of `src/utils/deduplication.py`). -/
def cluster (events : List Event) (config : DuplicateConfig) :
    Except String (Nat × List Event) :=
  clusterOuter config events []

/-- Comparison for `ORDER BY created_at ASC`: SQLite sorts `NULL` first. -/
def createdLe (a b : Event) : Bool :=
  match a.created_at, b.created_at with
  | none, _ => true
  | some _, none => false
  | some x, some y => x ≤ y

/-- Stable insertion into a `created_at`-sorted list. -/
def insertByCreated (e : Event) : List Event → List Event
  | [] => [e]
  | x :: xs => if createdLe x e then x :: insertByCreated e xs else e :: x :: xs

/-- Load order `ORDER BY created_at ASC` of `deduplicate_database`
(stable sort; ties keep insertion order). -/
def sortByCreated : List Event → List Event
  | [] => []
  | e :: es => insertByCreated e (sortByCreated es)

/-- One logical run of `deduplicate_database` on the stored collection:
load ordered by `created_at` ascending, then the clustering pass. On success
the collection is replaced by `merged_events`. -/
def dedupPass (db : List Event) (config : DuplicateConfig) :
    Except String (Nat × List Event) :=
  cluster (sortByCreated db) config

/-!
The store transaction of `deduplicate_database`.

The driver runs inside `with sqlite3.connect(db_path) as conn:`
with a single `conn.commit()` as its last statement: the `DELETE FROM events`
and each `INSERT` execute in one transaction, `sqlite3`'s connection context
manager commits on clean exit and rolls back when the block raises. The
operation sequence the driver issues is modelled as a list of `DbOp`, and the
transaction semantics as `runTxn`: writes go to a pending copy of the
collection that becomes durable only at `commit`; a failure at any operation
(index `failAt`) raises, discarding the pending copy. -/

inductive DbOp where
  | load
  | deleteAll
  | insert (e : Event)
  | commit
  deriving DecidableEq, Repr

/-- The operation sequence `deduplicate_database` issues against the store:
the `SELECT` load, then (after the in-memory clustering) `DELETE FROM events`,
one `INSERT` per merged event, and the final `commit`. Clustering itself can
raise (`merge_events`), in which case no write is ever issued. -/
def dedupOps (db : List Event) (config : DuplicateConfig) : Except String (List DbOp) :=
  match dedupPass db config with
  | .error msg => .error msg
  | .ok (_, merged) => .ok (DbOp.load :: DbOp.deleteAll :: merged.map DbOp.insert ++ [DbOp.commit])

/-- SQLite transaction semantics for the op sequence: `durable` is the
committed collection, `pending` the uncommitted working copy. An operation at
index `failAt` fails, raising out of the `with` block, which rolls back; a run
that ends without `commit` also leaves `durable` untouched. -/
def runTxn (durable pending : List Event) (failAt : Option Nat) (idx : Nat) :
    List DbOp → List Event
  | [] => durable
  | op :: ops =>
    if failAt = some idx then durable
    else
      match op with
      | .load => runTxn durable pending failAt (idx + 1) ops
      | .deleteAll => runTxn durable [] failAt (idx + 1) ops
      | .insert e => runTxn durable (pending ++ [e]) failAt (idx + 1) ops
      | .commit => runTxn pending pending failAt (idx + 1) ops

/-- The stored collection after a `deduplicate_database` run in which the
store operation at index `failAt` (if any) fails. A clustering exception
happens before any write, leaving the collection as loaded. -/
def deduplicate_database_run (db : List Event) (config : DuplicateConfig)
    (failAt : Option Nat) : List Event :=
  match dedupOps db config with
  | .error _ => db
  | .ok ops => runTxn db db failAt 0 ops

/-- The default configuration `DuplicateConfig()`. -/
def defaultDuplicateConfig : DuplicateConfig := {}

/-!
Concrete events used in counterexamples and witnesses.
-/

/-- Cross-source pair: identical titles and times, different `source_name`. -/
def c1a : Event :=
  { title := "x", start_time := 0, end_time := some 3600, source_name := some "peoply.app" }

/-- See `c1a`. -/
def c1b : Event :=
  { title := "x", start_time := 0, end_time := some 3600, source_name := some "ifinavet.no" }

/-- First argument of the freshness counterexample: staler (`fetched_at = 0`). -/
def c2a : Event :=
  { id := some 1, title := "t1", start_time := 0, end_time := some 3600,
    fetched_at := some 0, capacity := some 5 }

/-- Second argument of the freshness counterexample: fresher (`fetched_at = 100`). -/
def c2b : Event :=
  { id := some 2, title := "t2", start_time := 0, end_time := some 3600,
    fetched_at := some 100, capacity := some 9 }

/-- Idempotence counterexample, event A: latest start (240 min). -/
def c3A : Event :=
  { id := some 1, title := "x", start_time := 14400, end_time := some 18000,
    created_at := some 0 }

/-- Idempotence counterexample, event B: earliest start (0 min). -/
def c3B : Event :=
  { id := some 2, title := "x", start_time := 0, end_time := some 3600,
    created_at := some 10 }

/-- Idempotence counterexample, event C: start 120 min, in window of both. -/
def c3C : Event :=
  { id := some 3, title := "x", start_time := 7200, end_time := some 10800,
    created_at := some 20 }

/-- The stored collection of the idempotence counterexample. -/
def c3evs : List Event := [c3A, c3B, c3C]

/-- Threshold-monotonicity counterexample, event A. -/
def c5A : Event :=
  { id := some 1, title := "bbaabb", start_time := 7200, end_time := some 10800,
    created_at := some 0 }

/-- Threshold-monotonicity counterexample, event B (similarity 2/3 to A). -/
def c5B : Event :=
  { id := some 2, title := "bbaazz", start_time := 0, end_time := some 3600,
    created_at := some 10 }

/-- Threshold-monotonicity counterexample, event C (similarity 4/5 to A). -/
def c5C : Event :=
  { id := some 3, title := "aabb", start_time := 14400, end_time := some 18000,
    created_at := some 20 }

/-- Threshold-monotonicity counterexample, event D (similarity 4/5 to A,
1/2 to C). -/
def c5D : Event :=
  { id := some 4, title := "bbaa", start_time := 14400, end_time := some 18000,
    created_at := some 30 }

/-- The stored collection of the threshold-monotonicity counterexample. -/
def c5evs : List Event := [c5A, c5B, c5C, c5D]

/-- A well-formed event without an `end_time`. -/
def c4a : Event := { title := "x", start_time := 0, end_time := none }

/-- See `c4a`. -/
def c4b : Event := { title := "x", start_time := 600, end_time := none }

/-- An event with an `end_time`, for the both-present branch of the rule. -/
def c4c : Event := { title := "x", start_time := 0, end_time := some 100 }

/-- See `c4c`. -/
def c4d : Event := { title := "x", start_time := 600, end_time := some 200 }

/-- Id-rule counterexample: no `created_at`, truthy id 5. -/
def c6a : Event :=
  { id := some 5, title := "x", start_time := 0, end_time := some 3600,
    created_at := none }

/-- Id-rule counterexample: has `created_at`, id 7. -/
def c6b : Event :=
  { id := some 7, title := "x", start_time := 0, end_time := some 3600,
    created_at := some 0 }

/-- Witness event for duplicate-free runs (title dissimilar from `w2`). -/
def w1 : Event :=
  { id := some 100, title := "alpha", start_time := 0, end_time := some 600,
    created_at := some 0 }

/-- Witness event for duplicate-free runs (title dissimilar from `w1`). -/
def w2 : Event :=
  { id := some 200, title := "zzzz", start_time := 0, end_time := some 600,
    created_at := some 5 }

/-!
Helper lemmas shared by the claim theorems.
-/

/-- Normalization only reads the `ignore_case` and `normalize_whitespace`
settings of the configuration. -/
theorem normalize_string_ext (text : String) (config config' : DuplicateConfig)
    (hc : config'.ignore_case = config.ignore_case)
    (hn : config'.normalize_whitespace = config.normalize_whitespace) :
    normalize_string text config' = normalize_string text config := by
  unfold normalize_string
  rw [hc, hn]

/-- Title similarity only reads the `ignore_case` and `normalize_whitespace`
settings of the configuration. -/
theorem calculate_title_similarity_ext (title1 title2 : String)
    (config config' : DuplicateConfig)
    (hc : config'.ignore_case = config.ignore_case)
    (hn : config'.normalize_whitespace = config.normalize_whitespace) :
    calculate_title_similarity title1 title2 config' =
      calculate_title_similarity title1 title2 config := by
  unfold calculate_title_similarity
  rw [normalize_string_ext title1 config config' hc hn,
    normalize_string_ext title2 config config' hc hn]

/-- Inversion of a successful `merge_events`: the fields of the merged record
that are relevant to the claims, read off the constructed `Event`. -/
theorem merge_events_ok_fields (a b m : Event) (h : merge_events a b = .ok m) :
    m.title = a.title ∧
    m.id = (match a.created_at, b.created_at with
            | some c1, some c2 => if c1 < c2 then a.id else b.id
            | _, _ => pyOrInt a.id b.id) ∧
    m.location = pyOrStr a.location b.location ∧
    m.capacity = pyOrInt a.capacity b.capacity ∧
    m.spots_left = pyOrInt a.spots_left b.spots_left ∧
    m.food = pyOrStr a.food b.food ∧
    m.fetched_at = none ∧
    m.start_time = pyMin a.start_time b.start_time := by
  simp only [merge_events] at h
  split at h
  · cases h
    refine ⟨rfl, ?_, rfl, rfl, rfl, rfl, rfl, rfl⟩
    rfl
  · cases h

/-!
Claim theorems.
-/

/-- C1, counterexample: `DuplicateConfig` has no `require_same_source` option
and `are_events_duplicate` never consults `source_name`; under the default
configuration, two events with identical titles and start times but different
`source_name` values are judged duplicates, where the claim requires `false`. -/
theorem C1_counterexample :
    are_events_duplicate c1a c1b defaultDuplicateConfig = true ∧
    c1a.source_name = some "peoply.app" ∧ c1b.source_name = some "ifinavet.no" := by
  refine ⟨by decide, rfl, rfl⟩

/-- C1, amended: the duplicate check is entirely independent of `source_name`:
replacing either record's `source_name` by anything at all (including `None` or
the empty string) never changes the verdict, under every configuration. There
is no `require_same_source` knob and no source-isolation guarantee. -/
theorem C1_amended_source_name_ignored (e1 e2 : Event) (config : DuplicateConfig)
    (s1 s2 : Option String) :
    are_events_duplicate { e1 with source_name := s1 } { e2 with source_name := s2 } config =
      are_events_duplicate e1 e2 config := rfl

/-- C2, counterexample: `b` is strictly fresher than `a`
(`fetched_at` 100 vs 0), yet the merged record takes `title` (a field with no
field-specific exception rule) from `a`, not from the fresher record `b` —
and likewise `capacity` comes from `a` although `b` also has one. -/
theorem C2_counterexample :
    c2a.fetched_at = some 0 ∧ c2b.fetched_at = some 100 ∧
    c2a.title = "t1" ∧ c2b.title = "t2" ∧
    (merge_events c2a c2b).toOption.map Event.title = some "t1" ∧
    c2a.capacity = some 5 ∧ c2b.capacity = some 9 ∧
    (merge_events c2a c2b).toOption.map Event.capacity = some (some 5) := by
  exact ⟨rfl, rfl, rfl, rfl, by decide, rfl, rfl, by decide⟩

/-- C2, amended: `merge_events` never reads `fetched_at` (changing it on either
argument leaves the result unchanged, and the merged record's own `fetched_at`
is always `None`); no base is selected by freshness. Instead the first
argument plays the role of the base: `title` is taken from it outright, and
`location`, `capacity`, `spots_left` and `food` take the first argument's
value whenever it is truthy, falling back to the second argument's. -/
theorem C2_amended_first_argument_is_base :
    (∀ (a b : Event) (fa fb : Option Int),
        merge_events { a with fetched_at := fa } { b with fetched_at := fb } =
          merge_events a b) ∧
    (∀ (a b m : Event), merge_events a b = .ok m →
        m.title = a.title ∧
        m.location = pyOrStr a.location b.location ∧
        m.capacity = pyOrInt a.capacity b.capacity ∧
        m.spots_left = pyOrInt a.spots_left b.spots_left ∧
        m.food = pyOrStr a.food b.food ∧
        m.fetched_at = none) := by
  constructor
  · intro a b fa fb
    rfl
  · intro a b m h
    obtain ⟨ht, _, hl, hc, hs, hf, hfa, _⟩ := merge_events_ok_fields a b m h
    exact ⟨ht, hl, hc, hs, hf, hfa⟩

/-- C2, witness for the amended theorem at concrete inputs. -/
theorem C2_witness :
    merge_events { c2a with fetched_at := some 55 } { c2b with fetched_at := none } =
      merge_events c2a c2b ∧
    (merge_events c2a c2b).toOption.map Event.title = some c2a.title := by
  constructor
  · exact C2_amended_first_argument_is_base.1 c2a c2b (some 55) none
  · have hok : (merge_events c2a c2b).toOption.isSome = true := by decide
    cases hm : merge_events c2a c2b with
    | error e => rw [hm] at hok; simp [Except.toOption] at hok
    | ok m =>
      have := (C2_amended_first_argument_is_base.2 c2a c2b m hm).1
      simp [Except.toOption, this]

/-- C4: the claim is right and the code is wrong. For well-formed events
without an `end_time` (an optional field, routinely `None` for events loaded
from the store), `merge_events` evaluates `max(event1.end_time,
event2.end_time)`, which raises `TypeError` instead of returning the present
value or leaving the field absent; when both are present the merged
`end_time` is the later one, as claimed. -/
theorem C4_end_time_merge_bug :
    c4a.end_time = none ∧ c4b.end_time = none ∧
    (merge_events c4a c4b).isOk = false ∧
    c4c.end_time = some 100 ∧ c4d.end_time = some 200 ∧
    (merge_events c4c c4d).toOption.map Event.end_time = some (some (pyMax 100 200)) := by
  exact ⟨rfl, rfl, by decide, rfl, rfl, by decide⟩

/-- C6, counterexample: exactly one input (`c6b`) has a `created_at`, so the
claim requires the merged id to be that input's id (7); the code instead
computes `event1.id or event2.id` and returns the first argument's id (5). -/
theorem C6_counterexample :
    c6a.created_at = none ∧ c6b.created_at = some 0 ∧
    c6a.id = some 5 ∧ c6b.id = some 7 ∧
    (merge_events c6a c6b).toOption.map Event.id = some (some 5) := by
  exact ⟨rfl, rfl, rfl, rfl, by decide⟩

/-- C6, amended: the merged id is the id of the input with the strictly
earlier `created_at` when both have one, the second argument's id on a tie;
when either `created_at` is missing it is `event1.id or event2.id` under
Python truthiness (the first argument's id whenever that is non-`None` and
non-zero, regardless of which input has a `created_at`). -/
theorem C6_amended_id_rule (a b m : Event) (h : merge_events a b = .ok m) :
    m.id = (match a.created_at, b.created_at with
            | some c1, some c2 => if c1 < c2 then a.id else b.id
            | _, _ => pyOrInt a.id b.id) :=
  (merge_events_ok_fields a b m h).2.1

/-- C6, witness for the amended theorem at concrete inputs. -/
theorem C6_witness :
    (merge_events c6a c6b).toOption.map Event.id = some (pyOrInt c6a.id c6b.id) := by
  have hok : (merge_events c6a c6b).toOption.isSome = true := by decide
  cases hm : merge_events c6a c6b with
  | error e => rw [hm] at hok; simp [Except.toOption] at hok
  | ok m =>
    have := C6_amended_id_rule c6a c6b m hm
    simp [Except.toOption, this, c6a, c6b]

/-- C9: confirmed. The merged record's title is always the first argument's
title, and the inner clustering loop preserves the accumulator's title, so an
accumulator always carries the original candidate's title no matter how many
duplicates (with whatever `fetched_at`/`created_at`) it absorbs. -/
theorem C9_title_from_first_argument :
    (∀ (a b m : Event), merge_events a b = .ok m → m.title = a.title) ∧
    (∀ (config : DuplicateConfig) (current : Event) (rest : List Event)
        (processed : List (Option Int)) (c : Event) (p : List (Option Int)) (n : Nat),
        clusterInner config current rest processed = .ok (c, p, n) →
        c.title = current.title) := by
  have hmerge : ∀ (a b m : Event), merge_events a b = .ok m → m.title = a.title :=
    fun a b m h => (merge_events_ok_fields a b m h).1
  refine ⟨hmerge, ?_⟩
  intro config current rest
  induction rest generalizing current with
  | nil =>
    intro processed c p n h
    simp only [clusterInner] at h
    cases h
    rfl
  | cons e2 tl ih =>
    intro processed c p n h
    simp only [clusterInner] at h
    split at h
    · exact ih current processed c p n h
    · split at h
      · split at h
        · cases h
        · rename_i merged hm
          split at h
          · cases h
          · rename_i cr pr nr hrec
            cases h
            exact (ih merged (e2.id :: processed) _ _ _ hrec).trans
              (hmerge current e2 merged hm)
      · exact ih current processed c p n h

/-- C9, witness: the inner loop applied to a concrete three-event chain keeps
the first event's title. -/
theorem C9_witness :
    (clusterInner defaultDuplicateConfig c3A [c3B, c3C] []).toOption.map
        (fun r => r.1.title) = some c3A.title := by
  have hok : (clusterInner defaultDuplicateConfig c3A [c3B, c3C] []).toOption.isSome = true := by
    decide
  cases hm : clusterInner defaultDuplicateConfig c3A [c3B, c3C] [] with
  | error e => rw [hm] at hok; simp [Except.toOption] at hok
  | ok r =>
    obtain ⟨c, p, n⟩ := r
    have := C9_title_from_first_argument.2 defaultDuplicateConfig c3A [c3B, c3C] [] c p n hm
    simp [Except.toOption, this]

/-- C7: confirmed. When `require_exact_time` and `require_same_location` are
off and the titles pass the similarity gate, a start-time gap of exactly the
configured window (`timedelta(minutes=time_window_minutes)`, i.e.
`60 * time_window_minutes` seconds) is judged duplicate — the comparison is
`>`, so the boundary is inclusive — while any strictly larger gap is not. -/
theorem C7_time_window_boundary (e1 e2 : Event) (config : DuplicateConfig)
    (hexact : config.require_exact_time = false)
    (hloc : config.require_same_location = false)
    (htitle : ¬ (calculate_title_similarity e1.title e2.title config <
      config.title_similarity_threshold)) :
    (pyAbs (e1.start_time - e2.start_time) = 60 * config.time_window_minutes →
      are_events_duplicate e1 e2 config = true) ∧
    (pyAbs (e1.start_time - e2.start_time) > 60 * config.time_window_minutes →
      are_events_duplicate e1 e2 config = false) := by
  constructor
  · intro hgap
    have hnotgt : ¬ (pyAbs (e1.start_time - e2.start_time) >
        60 * config.time_window_minutes) := by
      rw [hgap]
      exact lt_irrefl _
    simp [are_events_duplicate, hexact, hloc, htitle, hnotgt]
  · intro hgap
    simp [are_events_duplicate, hexact, htitle, hgap]

/-- C7, witness: equal titles, gap exactly 120 minutes → duplicate; gap
240 minutes → not duplicate, under the default configuration. -/
theorem C7_witness :
    are_events_duplicate c3A c3C defaultDuplicateConfig = true ∧
    are_events_duplicate c3A c3B defaultDuplicateConfig = false :=
  ⟨(C7_time_window_boundary c3A c3C defaultDuplicateConfig rfl rfl (by decide)).1 (by decide),
   (C7_time_window_boundary c3A c3B defaultDuplicateConfig rfl rfl (by decide)).2 (by decide)⟩

/-- C5, counterexample: on the four-event collection `c5evs`, lowering the
threshold from 3/4 to 3/5 (all other settings fixed at the defaults) makes
the clustering pass detect fewer duplicates: 1 instead of 2. At 3/4, event A
absorbs C and D; at 3/5, A first absorbs B, which drags the accumulator's
`start_time` down (merge takes the minimum) and pushes C and D out of the
time window, while C and D are not similar enough to each other. -/
theorem C5_counterexample :
    mkRat 3 5 < mkRat 3 4 ∧
    (dedupPass c5evs { title_similarity_threshold := mkRat 3 4 }).toOption.map Prod.fst =
      some 2 ∧
    (dedupPass c5evs { title_similarity_threshold := mkRat 3 5 }).toOption.map Prod.fst =
      some 1 :=
  ⟨by decide, by decide, by decide⟩

/-- C5, amended: monotonicity does hold pairwise — lowering the threshold
(everything else fixed) never turns a duplicate pair into a non-duplicate —
but not for the clustering pass's `duplicate_count`, because chained merging
moves the accumulator's `start_time` (see `C5_counterexample`). -/
theorem C5_amended_pairwise_threshold_monotone (e1 e2 : Event)
    (config config' : DuplicateConfig)
    (hthr : config'.title_similarity_threshold ≤ config.title_similarity_threshold)
    (hw : config'.time_window_minutes = config.time_window_minutes)
    (hl : config'.require_same_location = config.require_same_location)
    (he : config'.require_exact_time = config.require_exact_time)
    (hc : config'.ignore_case = config.ignore_case)
    (hn : config'.normalize_whitespace = config.normalize_whitespace)
    (h : are_events_duplicate e1 e2 config = true) :
    are_events_duplicate e1 e2 config' = true := by
  have hsim : calculate_title_similarity e1.title e2.title config' =
      calculate_title_similarity e1.title e2.title config :=
    calculate_title_similarity_ext _ _ _ _ hc hn
  have hns : ∀ s, normalize_string s config' = normalize_string s config :=
    fun s => normalize_string_ext s _ _ hc hn
  simp only [are_events_duplicate] at h ⊢
  rw [hsim, hw, hl, he, hns, hns]
  by_cases h1 : calculate_title_similarity e1.title e2.title config <
      config.title_similarity_threshold
  · rw [if_pos h1] at h
    exact absurd h (by simp)
  · rw [if_neg h1] at h
    have h2 : ¬ (calculate_title_similarity e1.title e2.title config <
        config'.title_similarity_threshold) :=
      fun hh => h1 (lt_of_lt_of_le hh hthr)
    rw [if_neg h2]
    exact h

/-- C5, witness for the amended pairwise monotonicity at concrete inputs. -/
theorem C5_witness :
    are_events_duplicate c3A c3C { title_similarity_threshold := mkRat 1 2 } = true :=
  C5_amended_pairwise_threshold_monotone c3A c3C defaultDuplicateConfig
    { title_similarity_threshold := mkRat 1 2 }
    (by decide) rfl rfl rfl rfl rfl (by decide)

/-!
Counting and inversion lemmas for the clustering loop, shared by the C3 and
C10 theorems.
-/

/-- A successful inner loop only ever appends ids of the scanned tail to
`processed_ids`. -/
theorem clusterInner_processed_suffix (config : DuplicateConfig) :
    ∀ (current : Event) (rest : List Event) (processed : List (Option Int))
      (c : Event) (p : List (Option Int)) (n : Nat),
      clusterInner config current rest processed = .ok (c, p, n) →
      ∃ l, p = l ++ processed ∧ ∀ x ∈ l, x ∈ rest.map Event.id := by
  intro current rest
  induction rest generalizing current with
  | nil =>
    intro processed c p n h
    simp only [clusterInner] at h
    cases h
    exact ⟨[], rfl, by simp⟩
  | cons e2 tl ih =>
    intro processed c p n h
    simp only [clusterInner] at h
    split at h
    · obtain ⟨l, hp, hsub⟩ := ih current processed c p n h
      exact ⟨l, hp, fun x hx => List.mem_cons_of_mem _ (hsub x hx)⟩
    · split at h
      · split at h
        · cases h
        · rename_i merged hm
          split at h
          · cases h
          · rename_i cr pr nr hrec
            cases h
            obtain ⟨l, hp, hsub⟩ := ih merged (e2.id :: processed) _ _ _ hrec
            refine ⟨l ++ [e2.id], by rw [hp, List.append_assoc]; rfl, ?_⟩
            intro x hx
            rcases List.mem_append.mp hx with hx | hx
            · exact List.mem_cons_of_mem _ (hsub x hx)
            · have : x = e2.id := by simpa using hx
              subst this
              exact List.mem_cons_self _ _
      · obtain ⟨l, hp, hsub⟩ := ih current processed c p n h
        exact ⟨l, hp, fun x hx => List.mem_cons_of_mem _ (hsub x hx)⟩

/-- Prepending an id that occurs nowhere in `l` to the processed set does not
change how many events of `l` count as processed. -/
theorem countP_cons_id_irrel (x : Option Int) (P : List (Option Int)) :
    ∀ (l : List Event), x ∉ l.map Event.id →
      l.countP (fun e => decide (e.id ∈ x :: P)) =
        l.countP (fun e => decide (e.id ∈ P)) := by
  intro l
  induction l with
  | nil => intro _; rfl
  | cons e tl ih =>
    intro hx
    have hne : e.id ≠ x := fun hh => hx (by simp [hh])
    have htl : x ∉ tl.map Event.id := fun hh => hx (List.mem_cons_of_mem _ hh)
    simp only [List.countP_cons]
    rw [ih htl]
    congr 1
    simp [List.mem_cons, hne]

/-- A successful inner loop that absorbed `n` duplicates marks exactly `n`
additional events of the scanned tail as processed. -/
theorem clusterInner_countP (config : DuplicateConfig) :
    ∀ (current : Event) (rest : List Event) (processed : List (Option Int))
      (c : Event) (p : List (Option Int)) (n : Nat),
      (rest.map Event.id).Nodup →
      clusterInner config current rest processed = .ok (c, p, n) →
      rest.countP (fun e => decide (e.id ∈ p)) =
        n + rest.countP (fun e => decide (e.id ∈ processed)) := by
  intro current rest
  induction rest generalizing current with
  | nil =>
    intro processed c p n _ h
    simp only [clusterInner] at h
    cases h
    simp
  | cons e2 tl ih =>
    intro processed c p n hnd h
    have hpair : e2.id ∉ tl.map Event.id ∧ (tl.map Event.id).Nodup := by
      rw [List.map_cons, List.nodup_cons] at hnd
      exact hnd
    have hmem : e2.id ∉ tl.map Event.id := hpair.1
    have hnd2 : (tl.map Event.id).Nodup := hpair.2
    simp only [clusterInner] at h
    split at h
    · rename_i hin
      obtain ⟨l, hp, _⟩ := clusterInner_processed_suffix config current tl processed c p n h
      have hinp : e2.id ∈ p := by
        rw [hp]
        exact List.mem_append_right _ hin
      have hcount := ih current processed c p n hnd2 h
      have hc1 : (e2 :: tl).countP (fun e => decide (e.id ∈ p)) =
          tl.countP (fun e => decide (e.id ∈ p)) + 1 := by
        simp [List.countP_cons, hinp]
      have hc2 : (e2 :: tl).countP (fun e => decide (e.id ∈ processed)) =
          tl.countP (fun e => decide (e.id ∈ processed)) + 1 := by
        simp [List.countP_cons, hin]
      rw [hc1, hc2]
      omega
    · rename_i hnotin
      split at h
      · split at h
        · cases h
        · rename_i merged hm
          split at h
          · cases h
          · rename_i cr pr nr hrec
            cases h
            obtain ⟨l, hp, _⟩ :=
              clusterInner_processed_suffix config merged tl (e2.id :: processed) _ _ _ hrec
            have hinp : e2.id ∈ p := by
              rw [hp]
              exact List.mem_append_right _ (List.mem_cons_self _ _)
            have hcount := ih merged (e2.id :: processed) c p nr hnd2 hrec
            rw [countP_cons_id_irrel e2.id processed tl hmem] at hcount
            have hc1 : (e2 :: tl).countP (fun e => decide (e.id ∈ p)) =
                tl.countP (fun e => decide (e.id ∈ p)) + 1 := by
              simp [List.countP_cons, hinp]
            have hc2 : (e2 :: tl).countP (fun e => decide (e.id ∈ processed)) =
                tl.countP (fun e => decide (e.id ∈ processed)) := by
              simp [List.countP_cons, hnotin]
            rw [hc1, hc2]
            omega
      · rename_i hnotdup
        have hcount := ih current processed c p n hnd2 h
        obtain ⟨l, hp, hsub⟩ := clusterInner_processed_suffix config current tl processed c p n h
        have hnotinp : e2.id ∉ p := by
          rw [hp]
          intro hx
          rcases List.mem_append.mp hx with hx | hx
          · exact hmem (hsub _ hx)
          · exact hnotin hx
        have hc1 : (e2 :: tl).countP (fun e => decide (e.id ∈ p)) =
            tl.countP (fun e => decide (e.id ∈ p)) := by
          simp [List.countP_cons, hnotinp]
        have hc2 : (e2 :: tl).countP (fun e => decide (e.id ∈ processed)) =
            tl.countP (fun e => decide (e.id ∈ processed)) := by
          simp [List.countP_cons, hnotin]
        rw [hc1, hc2]
        omega

/-- Conservation through the outer loop: every event is either emitted,
counted as a duplicate, or was already marked processed on entry. -/
theorem clusterOuter_conservation (config : DuplicateConfig) :
    ∀ (events : List Event) (processed : List (Option Int)) (n : Nat) (out : List Event),
      (events.map Event.id).Nodup →
      clusterOuter config events processed = .ok (n, out) →
      n + out.length + events.countP (fun e => decide (e.id ∈ processed)) =
        events.length := by
  intro events
  induction events with
  | nil =>
    intro processed n out _ h
    simp only [clusterOuter] at h
    cases h
    simp
  | cons e1 tl ih =>
    intro processed n out hnd h
    have hpair : e1.id ∉ tl.map Event.id ∧ (tl.map Event.id).Nodup := by
      rw [List.map_cons, List.nodup_cons] at hnd
      exact hnd
    have hmem : e1.id ∉ tl.map Event.id := hpair.1
    have hnd2 : (tl.map Event.id).Nodup := hpair.2
    simp only [clusterOuter] at h
    split at h
    · rename_i hin
      have hrec := ih processed n out hnd2 h
      have hc : (e1 :: tl).countP (fun e => decide (e.id ∈ processed)) =
          tl.countP (fun e => decide (e.id ∈ processed)) + 1 := by
        simp [List.countP_cons, hin]
      rw [hc, List.length_cons]
      omega
    · rename_i hnotin
      split at h
      · cases h
      · rename_i current pr m hinner
        split at h
        · cases h
        · rename_i total merged houter
          cases h
          have hic := clusterInner_countP config e1 tl processed current pr m hnd2 hinner
          obtain ⟨l, hp, hsub⟩ :=
            clusterInner_processed_suffix config e1 tl processed current pr m hinner
          have hnotp : e1.id ∉ pr := by
            rw [hp]
            intro hx
            rcases List.mem_append.mp hx with hx | hx
            · exact hmem (hsub _ hx)
            · exact hnotin hx
          have ho := ih (e1.id :: pr) total merged hnd2 houter
          rw [countP_cons_id_irrel e1.id pr tl hmem] at ho
          have hc : (e1 :: tl).countP (fun e => decide (e.id ∈ processed)) =
              tl.countP (fun e => decide (e.id ∈ processed)) := by
            simp [List.countP_cons, hnotin]
          rw [hc, List.length_cons, List.length_cons]
          omega

/-- Inversion of an inner loop that found no duplicate: the accumulator and
the processed set are unchanged. -/
theorem clusterInner_zero (config : DuplicateConfig) :
    ∀ (current : Event) (rest : List Event) (processed : List (Option Int))
      (c : Event) (p : List (Option Int)),
      clusterInner config current rest processed = .ok (c, p, 0) →
      c = current ∧ p = processed := by
  intro current rest
  induction rest generalizing current with
  | nil =>
    intro processed c p h
    simp only [clusterInner] at h
    cases h
    exact ⟨rfl, rfl⟩
  | cons e2 tl ih =>
    intro processed c p h
    simp only [clusterInner] at h
    split at h
    · exact ih current processed c p h
    · split at h
      · split at h
        · cases h
        · rename_i merged hm
          split at h
          · cases h
          · rename_i cr pr nr hrec
            cases h
      · exact ih current processed c p h

/-- Inversion of an outer loop that found no duplicate, starting from a
processed set disjoint from the events: the output is the input. -/
theorem clusterOuter_zero (config : DuplicateConfig) :
    ∀ (events : List Event) (processed : List (Option Int)) (out : List Event),
      (events.map Event.id).Nodup →
      (∀ e ∈ events, e.id ∉ processed) →
      clusterOuter config events processed = .ok (0, out) →
      out = events := by
  intro events
  induction events with
  | nil =>
    intro processed out _ _ h
    simp only [clusterOuter] at h
    cases h
    rfl
  | cons e1 tl ih =>
    intro processed out hnd hfresh h
    have hpair : e1.id ∉ tl.map Event.id ∧ (tl.map Event.id).Nodup := by
      rw [List.map_cons, List.nodup_cons] at hnd
      exact hnd
    have hmem : e1.id ∉ tl.map Event.id := hpair.1
    have hnd2 : (tl.map Event.id).Nodup := hpair.2
    simp only [clusterOuter] at h
    split at h
    · rename_i hin
      exact absurd hin (hfresh e1 (List.mem_cons_self _ _))
    · rename_i hnotin
      split at h
      · cases h
      · rename_i current pr m hinner
        split at h
        · cases h
        · rename_i total merged houter
          injection h with h1
          injection h1 with h2 h3
          have hm0 : m = 0 := by omega
          have ht0 : total = 0 := by omega
          subst hm0 ht0
          obtain ⟨hcur, hpr⟩ := clusterInner_zero config e1 tl processed current pr hinner
          rw [hpr] at houter
          have hfresh2 : ∀ e ∈ tl, e.id ∉ e1.id :: processed := by
            intro e he hx
            rcases List.mem_cons.mp hx with hx | hx
            · exact hmem (hx ▸ List.mem_map_of_mem Event.id he)
            · exact hfresh e (List.mem_cons_of_mem _ he) hx
          have hmerged := ih (e1.id :: processed) merged hnd2 hfresh2 houter
          rw [← h3, hmerged, hcur]

/-- C10: confirmed. When the loaded events have pairwise distinct ids and the
clustering pass returns, `duplicate_count + length(merged_events)` equals the
number of input events: each event is absorbed exactly once or emitted
exactly once. -/
theorem C10_record_conservation (events : List Event) (config : DuplicateConfig)
    (n : Nat) (out : List Event)
    (hnd : (events.map Event.id).Nodup)
    (h : cluster events config = .ok (n, out)) :
    n + out.length = events.length := by
  have hmain := clusterOuter_conservation config events [] n out hnd h
  have hzero : events.countP (fun e => decide (e.id ∈ ([] : List (Option Int)))) = 0 := by
    simp
  omega

/-- C10, witness: a two-event duplicate-free run, `0 + 2 = 2`. -/
theorem C10_witness : (0 : Nat) + [w1, w2].length = [w1, w2].length :=
  C10_record_conservation [w1, w2] defaultDuplicateConfig 0 [w1, w2]
    (by decide) (by decide)

/-- C3, counterexample: `deduplicate_database` is not idempotent. On the
three-event collection `c3evs` (equal titles; starts at minutes 240, 0, 120;
default config) the first run merges A with C — lowering the merged record's
`start_time` to minute 120 — and reports 1 duplicate; re-running on the
stored result merges that record with B and reports 1 duplicate again,
instead of the claimed 0, and returns a different `merged_events`. -/
theorem C3_counterexample :
    (dedupPass c3evs defaultDuplicateConfig).toOption.map Prod.fst = some 1 ∧
    (dedupPass c3evs defaultDuplicateConfig).toOption.map
        (fun p => (dedupPass p.2 defaultDuplicateConfig).toOption.map Prod.fst) =
      some (some 1) :=
  ⟨by decide, by decide⟩

/-- C3, amended: idempotence holds exactly when the first run finds nothing:
if a run on id-distinct events reports `duplicate_count = 0` then it returned
the stored collection unchanged and a second run returns the same
`merged_events` with `duplicate_count = 0` again. In general a second run may
find and merge new duplicates, because merging lowers `start_time` into the
time window of records the originals were not close to. -/
theorem C3_amended_idempotent_when_no_duplicates (events : List Event)
    (config : DuplicateConfig) (out : List Event)
    (hnd : (events.map Event.id).Nodup)
    (h : cluster events config = .ok (0, out)) :
    out = events ∧ cluster out config = .ok (0, out) := by
  have hout : out = events := clusterOuter_zero config events [] out hnd (by simp) h
  subst hout
  exact ⟨rfl, h⟩

/-- C3, witness for the amended theorem on a duplicate-free pair. -/
theorem C3_witness :
    [w1, w2] = [w1, w2] ∧
    cluster [w1, w2] defaultDuplicateConfig = .ok (0, [w1, w2]) :=
  C3_amended_idempotent_when_no_duplicates [w1, w2] defaultDuplicateConfig [w1, w2]
    (by decide) (by decide)

/-- Failing at any point of the insert/commit tail of the transaction leaves
the durable collection untouched: the single `commit` is the last operation,
and failing at the `commit` itself means nothing was published. -/
theorem runTxn_insert_commit_fail (c : List Event) :
    ∀ (ms : List Event) (p : List Event) (idx i : Nat),
      idx ≤ i → i ≤ idx + ms.length →
      runTxn c p (some i) idx (ms.map DbOp.insert ++ [DbOp.commit]) = c := by
  intro ms
  induction ms with
  | nil =>
    intro p idx i h1 h2
    have : i = idx := le_antisymm (by simpa using h2) h1
    subst this
    simp [runTxn]
  | cons m ms ih =>
    intro p idx i h1 h2
    by_cases hi : i = idx
    · subst hi
      simp [runTxn]
    · have hlt : idx < i := lt_of_le_of_ne h1 (Ne.symm hi)
      have hne : (some i : Option Nat) ≠ some idx := by
        simpa using hi
      simp only [List.map_cons, List.cons_append, runTxn]
      rw [if_neg hne]
      exact ih (p ++ [m]) (idx + 1) i hlt (by
        simp only [List.length_cons] at h2
        omega)

/-- C8: confirmed. If any store operation of the bulk run — the load, the
`DELETE FROM events`, any `INSERT`, or the final commit — fails, the raised
exception leaves the `with sqlite3.connect(...)` block, which rolls the
transaction back, and the stored collection equals its pre-run state; no
deleted-but-not-reinserted state is ever committed. (A clustering exception
likewise aborts before any write.) -/
theorem C8_bulk_run_atomicity (db : List Event) (config : DuplicateConfig)
    (ops : List DbOp) (i : Nat)
    (hops : dedupOps db config = .ok ops)
    (hi : i < ops.length) :
    deduplicate_database_run db config (some i) = db := by
  have hrun : deduplicate_database_run db config (some i) = runTxn db db (some i) 0 ops := by
    unfold deduplicate_database_run
    rw [hops]
  rw [hrun]
  unfold dedupOps at hops
  cases hd : dedupPass db config with
  | error msg =>
    rw [hd] at hops
    cases hops
  | ok res =>
    obtain ⟨n, merged⟩ := res
    rw [hd] at hops
    cases hops
    rcases i with _ | _ | k
    · simp [runTxn]
    · simp [runTxn]
    · have hlen : k ≤ merged.length := by
        simp only [List.length_cons, List.length_append, List.length_map,
          List.length_nil] at hi
        omega
      have hstep : runTxn db db (some (k + 1 + 1)) 0
          (DbOp.load :: DbOp.deleteAll :: (merged.map DbOp.insert ++ [DbOp.commit])) =
          runTxn db [] (some (k + 1 + 1)) 2 (merged.map DbOp.insert ++ [DbOp.commit]) := by
        simp [runTxn]
      exact hstep.trans
        (runTxn_insert_commit_fail db merged [] 2 (k + 1 + 1) (by omega) (by omega))

/-- C8, witness: failing the `INSERT` (operation index 2) of a one-event run
leaves the collection as it was. -/
theorem C8_witness :
    deduplicate_database_run [w1] defaultDuplicateConfig (some 2) = [w1] :=
  C8_bulk_run_atomicity [w1] defaultDuplicateConfig
    [DbOp.load, DbOp.deleteAll, DbOp.insert w1, DbOp.commit] 2
    (by decide) (by decide)
